import Mathlib

/-
Shallow embedding of the command registry of discordjs-command-registry
(src/builders.ts and the SlashCommandRegistry class), together with proofs
about its dispatch resolver, command collection, serialization and
registration behavior.  Machine objects are modelled as follows: the
JavaScript Map becomes an insertion-ordered association list with
last-write-wins update in place, builder classes become structures, and
instanceof discrimination becomes constructor discrimination.  Handlers are
pure functions from interactions to a result type that is a parameter of
the development.
-/

namespace DCR

/-- Package name from package.json, used inside error messages. -/
def pack_name : String := "discord-command-registry"

/-- Kind of a Discord interaction, as discriminated by the methods
isChatInputCommand and isContextMenuCommand in the source. -/
inductive IKind where
  | chatInput
  | contextMenu
  | other
deriving DecidableEq, Repr

/-- Model of a Discord.js interaction as read by the registry: its kind,
its command name, and the raw subcommand group and subcommand option
values carried by its option resolver. -/
structure Interaction where
  kind : IKind
  commandName : String
  optGroup : Option String
  optSub : Option String

/-- Model of the isChatInputCommand method. -/
def Interaction.isChatInputCommand (i : Interaction) : Bool :=
  match i.kind with
  | IKind.chatInput => true
  | _ => false

/-- Model of the isContextMenuCommand method. -/
def Interaction.isContextMenuCommand (i : Interaction) : Bool :=
  match i.kind with
  | IKind.contextMenu => true
  | _ => false

/-- Model of the optional call interaction.options.getSubcommandGroup on
an interaction: chat input interactions expose the raw group option,
anything else yields no value. -/
def Interaction.getSubcommandGroup (i : Interaction) : Option String :=
  if i.isChatInputCommand then i.optGroup else none

/-- Model of the optional call interaction.options.getSubcommand. -/
def Interaction.getSubcommand (i : Interaction) : Option String :=
  if i.isChatInputCommand then i.optSub else none

/-- JavaScript truthiness of a nullable string: null, undefined and the
empty string are falsy. -/
def strTruthy : Option String → Bool
  | none => false
  | some s => !s.isEmpty

/-- The function called during command execution. -/
abbrev Handler (ρ : Type) := Interaction → ρ

/-- Entry of the options array of a slash command builder: a subcommand
builder, a subcommand group builder with its own options array, or a
plain non-subcommand option.  The instanceof checks of the source become
constructor discrimination on this type. -/
inductive ChildEntry (ρ : Type) where
  | sub (name : String) (handler : Option (Handler ρ))
  | group (name : String) (handler : Option (Handler ρ))
      (options : List (ChildEntry ρ))
  | plainOption (name : String)

/-- Name of a child entry. -/
def ChildEntry.name : ChildEntry ρ → String
  | .sub n _ => n
  | .group n _ _ => n
  | .plainOption n => n

/-- Whether an entry is an instance of SlashCommandSubcommandBuilder. -/
def ChildEntry.isSub : ChildEntry ρ → Bool
  | .sub _ _ => true
  | _ => false

/-- Whether an entry is an instance of SlashCommandSubcommandGroupBuilder. -/
def ChildEntry.isGroup : ChildEntry ρ → Bool
  | .group _ _ _ => true
  | _ => false

/-- Handler attached to a child entry, if any. -/
def ChildEntry.handler : ChildEntry ρ → Option (Handler ρ)
  | .sub _ h => h
  | .group _ h _ => h
  | .plainOption _ => none

/-- Options array of a subcommand group entry. -/
def ChildEntry.groupOptions : ChildEntry ρ → List (ChildEntry ρ)
  | .group _ _ o => o
  | _ => []

/-- Model of the SlashCommandBuilder class of this package. -/
structure SlashCommandBuilder (ρ : Type) where
  name : String := ""
  handler : Option (Handler ρ) := none
  options : List (ChildEntry ρ) := []

/-- Model of the ContextMenuCommandBuilder class of this package. -/
structure ContextMenuCommandBuilder (ρ : Type) where
  name : String := ""
  handler : Option (Handler ρ) := none

/-- A top level builder stored in the command map. -/
inductive TopLevelBuilder (ρ : Type) where
  | slash (b : SlashCommandBuilder ρ)
  | contextMenu (b : ContextMenuCommandBuilder ρ)

/-- Name of a top level builder. -/
def TopLevelBuilder.name : TopLevelBuilder ρ → String
  | .slash b => b.name
  | .contextMenu b => b.name

/-- Handler of a top level builder. -/
def TopLevelBuilder.handler : TopLevelBuilder ρ → Option (Handler ρ)
  | .slash b => b.handler
  | .contextMenu b => b.handler

/-- Options array of a top level builder.  A context menu builder has no
options field at all, which the source would observe as undefined; that
is modelled as none. -/
def TopLevelBuilder.optionsOf : TopLevelBuilder ρ → Option (List (ChildEntry ρ))
  | .slash b => some b.options
  | .contextMenu _ => none

/-! Insertion ordered string keyed map, with the semantics of a
JavaScript Map: get returns the first (unique) entry for the key, and
set overwrites the value in place when the key is present, keeping the
original position, and appends otherwise. -/

/-- Model of Map.prototype.get. -/
def mapGet (m : List (String × α)) (k : String) : Option α :=
  (m.find? (fun e => e.1 == k)).map Prod.snd

/-- Model of Map.prototype.set: when the key is present its binding is
replaced in place, keeping its original position, otherwise the new
binding is appended.  Maps produced by these operations never hold two
bindings for one key. -/
def mapSet (m : List (String × α)) (k : String) (v : α) : List (String × α) :=
  match m with
  | [] => [(k, v)]
  | e :: rest => if e.1 == k then (k, v) :: rest else e :: mapSet rest k v

/-- Keys of a map, in order. -/
def mapKeys (m : List (String × α)) : List String :=
  m.map Prod.fst

/-- Model of the SlashCommandRegistry class state.  The rest_token field
is the token currently set on the private REST instance. -/
structure SlashCommandRegistry (ρ : Type) where
  command_map : List (String × TopLevelBuilder ρ) := []
  application_id : Option String := none
  default_handler : Option (Handler ρ) := none
  guild_id : Option String := none
  token : Option String := none
  rest_token : Option String := none

/-- Accessor for the list of builder objects, in map order. -/
def SlashCommandRegistry.commands (reg : SlashCommandRegistry ρ) :
    List (TopLevelBuilder ρ) :=
  reg.command_map.map Prod.snd

/-! Registration inputs.  addCommand accepts either a value or a
configurator function; the resolved value is either an instance of the
expected class of this package, an instance of only the corresponding
discord.js parent class, or some unrelated value (carrying its string
rendering for the error message). -/

/-- Outcome of resolving a BuilderInput, classified by the instanceof
checks of assertReturnOfBuilder. -/
inductive Resolved (α : Type) where
  | ours (b : α)
  | foreign (shown : String)
  | unrelated (shown : String)

/-- Either a builder like value or a function that returns one. -/
inductive BuilderInput (α : Type) where
  | value (v : Resolved α)
  | fn (f : α → Resolved α)

/-- Model of resolveBuilder: a function input is applied to a freshly
constructed builder, any other input is returned as is. -/
def resolveBuilder (input : BuilderInput α) (fresh : α) : Resolved α :=
  match input with
  | .value v => v
  | .fn f => f fresh

/-- Model of assertReturnOfBuilder, with the two error messages of the
source distinguished by the classification of the resolved value. -/
def assertReturnOfBuilder (input : Resolved α) (expectedName : String) :
    Except String α :=
  match input with
  | .ours b => .ok b
  | .foreign _ =>
      .error ("Use " ++ expectedName ++ " from " ++ pack_name ++ ", not discord.js")
  | .unrelated shown =>
      .error ("input did not resolve to a " ++ expectedName ++ ". Got " ++ shown)

/-- Model of SlashCommandRegistry.addCommand.  A thrown error is returned
in the first component and leaves the registry untouched, because the
source throws before reaching the map update. -/
def SlashCommandRegistry.addCommand (reg : SlashCommandRegistry ρ)
    (input : BuilderInput (SlashCommandBuilder ρ)) :
    Option String × SlashCommandRegistry ρ :=
  match assertReturnOfBuilder (resolveBuilder input {}) "SlashCommandBuilder" with
  | .error e => (some e, reg)
  | .ok b =>
      (none, { reg with command_map := mapSet reg.command_map b.name (.slash b) })

/-- Model of SlashCommandRegistry.addContextMenuCommand. -/
def SlashCommandRegistry.addContextMenuCommand (reg : SlashCommandRegistry ρ)
    (input : BuilderInput (ContextMenuCommandBuilder ρ)) :
    Option String × SlashCommandRegistry ρ :=
  match assertReturnOfBuilder (resolveBuilder input {}) "ContextMenuCommandBuilder" with
  | .error e => (some e, reg)
  | .ok b =>
      (none, { reg with command_map := mapSet reg.command_map b.name (.contextMenu b) })

/-- Truthiness test of toJSON for one command name.  Without a filter the
command map itself doubles as the truthiness map; with a filter a Map
from names to true is built first, exactly as in the source. -/
def shouldAddCmd (reg : SlashCommandRegistry ρ)
    (commands : Option (List String)) : String → Bool :=
  match commands with
  | some names =>
      fun n => ((mapGet (names.foldl (fun m nm => mapSet m nm true) []) n).getD false)
  | none => fun n => (mapGet reg.command_map n).isSome

/-- Model of SlashCommandRegistry.toJSON.  The per builder serialization
is the external framework responsibility and is passed in as bjson. -/
def SlashCommandRegistry.toJSON (reg : SlashCommandRegistry ρ)
    (commands : Option (List String)) (bjson : TopLevelBuilder ρ → J) : List J :=
  (reg.commands.filter (fun cmd => shouldAddCmd reg commands cmd.name)).map bjson

/-! Dispatch resolver. -/

/-- Error thrown by execute. -/
inductive ExecError where
  | notCommand (msg : String)
  | unmatched (msg : String)
  | typeError
deriving DecidableEq, Repr

/-- Input fed to execute: either a value that is not a command like event
at all (no isCommand method), or an interaction object. -/
inductive EventInput where
  | nonEvent
  | event (i : Interaction)

/-- Message of the error thrown for values that are not command like. -/
def notCommandMsg : String := "given value was not a Discord.js command"

/-- Lines of the error built by builderErr.  The group and subcommand
lines are present only for chat input interactions, exactly as in the
source, which joins this array with newlines. -/
def builderErrLines (i : Interaction) (part : String) : List String :=
  ("No known command matches the following (mismatch starts at \x27" ++ part ++ "\x27)") ::
  ("\tcommand:    " ++ i.commandName) ::
  ((if i.isChatInputCommand then
      [ "\tgroup:      " ++ ((i.getSubcommandGroup).getD "<none>"),
        "\tsubcommand: " ++ ((i.getSubcommand).getD "<none>") ]
    else []) ++
   ["You may need to update your commands with the Discord API."])

/-- Model of builderErr: the message of the error describing a
mismatched command interaction. -/
def builderErr (i : Interaction) (part : String) : String :=
  String.intercalate "\n" (builderErrLines i part)

/-- Search of the source for a subcommand group among an options array:
only entries that are instances of SlashCommandSubcommandGroupBuilder
with the given name match. -/
def findGroup (options : List (ChildEntry ρ)) (gname : String) :
    Option (ChildEntry ρ) :=
  options.find? (fun b => b.isGroup && b.name == gname)

/-- Search of the source for a subcommand among an options array: only
entries that are instances of SlashCommandSubcommandBuilder with the
given name match. -/
def findSub (options : List (ChildEntry ρ)) (sname : String) :
    Option (ChildEntry ρ) :=
  options.find? (fun b => b.isSub && b.name == sname)

/-- Model of SlashCommandRegistry.execute, as a state passing function:
the second component is the registry after the call.  The translation is
statement by statement; no statement of the source writes to the
registry, so every branch passes the incoming registry through.  The
typeError outcome models the TypeError the source would raise when
reading the undefined options field of a context menu builder. -/
def SlashCommandRegistry.execute (reg : SlashCommandRegistry ρ)
    (input : EventInput) :
    Except ExecError (Option ρ) × SlashCommandRegistry ρ :=
  match input with
  | .nonEvent => (.error (.notCommand notCommandMsg), reg)
  | .event i =>
    if !i.isChatInputCommand && !i.isContextMenuCommand then
      (.ok none, reg)
    else
      match mapGet reg.command_map i.commandName with
      | none => (.error (.unmatched (builderErr i "command")), reg)
      | some builder_top =>
        let chainStep : Except ExecError (Option (ChildEntry ρ) × Option (ChildEntry ρ)) :=
          if i.isChatInputCommand then
            let cmd_group := i.getSubcommandGroup
            let cmd_sub := i.getSubcommand
            let groupStep : Except ExecError (Option (ChildEntry ρ)) :=
              if strTruthy cmd_group then
                match builder_top.optionsOf with
                | none => .error ExecError.typeError
                | some opts =>
                  match findGroup opts (cmd_group.getD "") with
                  | none => .error (.unmatched (builderErr i "group"))
                  | some g => .ok (some g)
              else .ok none
            match groupStep with
            | .error e => .error e
            | .ok builder_group =>
              if strTruthy cmd_sub then
                let optsStep : Except ExecError (List (ChildEntry ρ)) :=
                  match builder_group with
                  | some g => .ok g.groupOptions
                  | none =>
                    match builder_top.optionsOf with
                    | none => .error ExecError.typeError
                    | some opts => .ok opts
                match optsStep with
                | .error e => .error e
                | .ok opts =>
                  match findSub opts (cmd_sub.getD "") with
                  | none => .error (.unmatched (builderErr i "subcommand"))
                  | some sfound => .ok (builder_group, some sfound)
              else .ok (builder_group, none)
          else .ok (none, none)
        match chainStep with
        | .error e => (.error e, reg)
        | .ok (builder_group, builder_sub) =>
          let handler :=
            (((builder_sub.bind ChildEntry.handler).orElse
                (fun _ => builder_group.bind ChildEntry.handler)).orElse
              (fun _ => builder_top.handler)).orElse
              (fun _ => reg.default_handler)
          (.ok (handler.map (fun h => h i)), reg)

/-! Remote registration. -/

/-- Optional parameters for registerCommands. -/
structure RegisterOpts where
  application_id : Option String := none
  commands : Option (List String) := none
  guild : Option String := none
  token : Option String := none

/-- Route of the registration HTTP call. -/
inductive Route where
  | applicationGuildCommands (app_id : Option String) (guild_id : String)
  | applicationCommands (app_id : Option String)
deriving DecidableEq, Repr

/-- One HTTP PUT call against the registration transport: the rest token
active during the call, the route, and the serialized body. -/
structure RestCall (J : Type) where
  token : Option String
  route : Route
  body : List J

/-- JavaScript truthy or: the first operand if truthy, else the second. -/
def orTruthy (a b : Option String) : Option String :=
  if strTruthy a then a else b

/-- The PUT call assembled by registerCommands from a registry whose rest
token already reflects a per call override, if any. -/
def SlashCommandRegistry.restCallOf (reg : SlashCommandRegistry ρ)
    (opts : RegisterOpts) (bjson : TopLevelBuilder ρ → J) : RestCall J :=
  let app_id := orTruthy opts.application_id reg.application_id
  let guild_id := orTruthy opts.guild reg.guild_id
  { token := reg.rest_token
    route :=
      if strTruthy guild_id then
        Route.applicationGuildCommands app_id (guild_id.getD "")
      else
        Route.applicationCommands app_id
    body := reg.toJSON opts.commands bjson }

/-- Model of SlashCommandRegistry.registerCommands.  The transport is the
external HTTP boundary; its outcome for the assembled call is propagated
verbatim, and the finally block restores the rest token from the token
field of the registry on both the success and the failure path. -/
def SlashCommandRegistry.registerCommands (reg : SlashCommandRegistry ρ)
    (opts : RegisterOpts) (transport : RestCall J → Except E A)
    (bjson : TopLevelBuilder ρ → J) :
    Except E A × SlashCommandRegistry ρ :=
  let reg1 :=
    if strTruthy opts.token then { reg with rest_token := opts.token } else reg
  (transport (reg1.restCallOf opts bjson), { reg1 with rest_token := reg1.token })

/-- Modelled from the spec: the handler selection rule in the words of
the specification, first non absent wins in the order subcommand
handler, group handler, top level command handler, default handler.
Used to compare the priority chain of the source against the
specification sentence. -/
def specFirstNonAbsent (hsub hgrp htop hdef : Option (Handler ρ)) :
    Option (Handler ρ) :=
  match hsub with
  | some h => some h
  | none =>
    match hgrp with
    | some h => some h
    | none =>
      match htop with
      | some h => some h
      | none => hdef

/-- Well formedness of a registry map: every binding stores a builder
whose name is the key it is stored under.  Every map reachable through
addCommand and addContextMenuCommand satisfies this. -/
def goodNames (reg : SlashCommandRegistry ρ) : Prop :=
  ∀ e ∈ reg.command_map, TopLevelBuilder.name e.2 = e.1

/-! Concrete fixtures, mirroring the registry test suite, used by the
witness theorems below. -/

/-- Subcommand level handler fixture. -/
def hSubW : Handler String := fun _ => "sub handler"

/-- Group level handler fixture. -/
def hGrpW : Handler String := fun _ => "group handler"

/-- Top level handler fixture. -/
def hTopW : Handler String := fun _ => "top handler"

/-- Default handler fixture. -/
def hDefW : Handler String := fun _ => "default handler"

/-- Subcommand fixture with a handler. -/
def subcmd1W : ChildEntry String := ChildEntry.sub "subcmd1" (some hSubW)

/-- Subcommand fixture without a handler. -/
def subcmd2W : ChildEntry String := ChildEntry.sub "subcmd2" none

/-- Group fixture holding two subcommands. -/
def group1W : ChildEntry String :=
  ChildEntry.group "group1" (some hGrpW) [subcmd1W, subcmd2W]

/-- Command fixture with a direct subcommand and no group. -/
def cmd1W : SlashCommandBuilder String :=
  { name := "cmd1", handler := none,
    options := [ChildEntry.sub "subcmd1" (some hSubW)] }

/-- Command fixture with a group and handlers at every level. -/
def cmd2W : SlashCommandBuilder String :=
  { name := "cmd2", handler := some hTopW, options := [group1W] }

/-- Registry fixture holding both command fixtures and a default
handler. -/
def regW : SlashCommandRegistry String :=
  { command_map := [("cmd1", TopLevelBuilder.slash cmd1W),
                    ("cmd2", TopLevelBuilder.slash cmd2W)],
    default_handler := some hDefW }

/-- Chat input interaction naming command, group and subcommand. -/
def iPrioW : Interaction :=
  { kind := IKind.chatInput, commandName := "cmd2",
    optGroup := some "group1", optSub := some "subcmd1" }

/-- Chat input interaction naming a direct subcommand without a group. -/
def iDirectW : Interaction :=
  { kind := IKind.chatInput, commandName := "cmd1",
    optGroup := none, optSub := some "subcmd1" }

/-- Interaction whose command discriminators are both false. -/
def iOtherW : Interaction :=
  { kind := IKind.other, commandName := "nope",
    optGroup := none, optSub := none }

/-- Chat input interaction naming an unregistered command. -/
def iBadW : Interaction :=
  { kind := IKind.chatInput, commandName := "bad",
    optGroup := none, optSub := none }

/-- Context menu interaction naming an unregistered command. -/
def iBadCMW : Interaction :=
  { kind := IKind.contextMenu, commandName := "bad",
    optGroup := none, optSub := none }

/-- Builder fixture named a. -/
def bAW : SlashCommandBuilder Nat := { name := "a" }

/-- Builder fixture named b. -/
def bBW : SlashCommandBuilder Nat := { name := "b" }

/-- Second builder fixture named a, used to overwrite the first. -/
def bA2W : SlashCommandBuilder Nat :=
  { name := "a", handler := some (fun _ => 2) }

/-- Builder fixture named c. -/
def bCW : SlashCommandBuilder Nat := { name := "c" }

/-- Registry fixture holding the builders named a and b. -/
def regNatW : SlashCommandRegistry Nat :=
  { command_map := [("a", TopLevelBuilder.slash bAW),
                    ("b", TopLevelBuilder.slash bBW)] }

/-! Helper lemmas about the map model. -/

theorem mapGet_nil (k : String) : mapGet ([] : List (String × α)) k = none := rfl

theorem mapGet_cons (e : String × α) (m : List (String × α)) (k : String) :
    mapGet (e :: m) k = if e.1 = k then some e.2 else mapGet m k := by
  simp only [mapGet, List.find?]
  by_cases h : e.1 = k
  · simp [h]
  · simp [h, beq_eq_false_iff_ne.mpr h]

theorem mapGet_mapSet_self (m : List (String × α)) (k : String) (v : α) :
    mapGet (mapSet m k v) k = some v := by
  induction m with
  | nil => simp [mapSet, mapGet_cons]
  | cons e rest ih =>
    by_cases h : e.1 = k
    · simp [mapSet, h, mapGet_cons]
    · simp [mapSet, h, beq_eq_false_iff_ne.mpr h, mapGet_cons, ih]

theorem mapGet_mapSet_ne (m : List (String × α)) (k n : String) (v : α)
    (hne : n ≠ k) : mapGet (mapSet m k v) n = mapGet m n := by
  have hkn : k ≠ n := fun hh => hne hh.symm
  induction m with
  | nil => simp [mapSet, mapGet_cons, hkn]
  | cons e rest ih =>
    by_cases h : e.1 = k
    · simp [mapSet, h, mapGet_cons, hkn]
    · simp [mapSet, h, beq_eq_false_iff_ne.mpr h, mapGet_cons, ih]

theorem mapGet_isSome_of_mem_keys (m : List (String × α)) (k : String)
    (h : k ∈ mapKeys m) : (mapGet m k).isSome := by
  induction m with
  | nil => simp [mapKeys] at h
  | cons e rest ih =>
    rw [mapGet_cons]
    by_cases he : e.1 = k
    · simp [he]
    · simp only [mapKeys, List.map_cons, List.mem_cons] at h
      rcases h with h | h
      · exact absurd h.symm he
      · simpa [he] using ih h

theorem mem_mapSet_self (m : List (String × α)) (k : String) (v : α) :
    (k, v) ∈ mapSet m k v := by
  induction m with
  | nil => simp [mapSet]
  | cons e rest ih =>
    by_cases h : e.1 = k
    · simp [mapSet, h]
    · simp [mapSet, h, beq_eq_false_iff_ne.mpr h, ih]

theorem mem_mapSet_of_ne (m : List (String × α)) (k : String) (v : α)
    (e : String × α) (he : e ∈ m) (hne : e.1 ≠ k) : e ∈ mapSet m k v := by
  induction m with
  | nil => simp at he
  | cons f rest ih =>
    by_cases h : f.1 = k
    · rcases List.mem_cons.mp he with rfl | hmem
      · exact absurd h hne
      · simp [mapSet, h, hmem]
    · rcases List.mem_cons.mp he with rfl | hmem
      · simp [mapSet, h, beq_eq_false_iff_ne.mpr h]
      · simp [mapSet, h, beq_eq_false_iff_ne.mpr h, ih hmem]

theorem mapKeys_mapSet_of_mem (m : List (String × α)) (k : String) (v : α)
    (h : k ∈ mapKeys m) : mapKeys (mapSet m k v) = mapKeys m := by
  induction m with
  | nil => simp [mapKeys] at h
  | cons e rest ih =>
    by_cases he : e.1 = k
    · simp [mapSet, he, mapKeys]
    · have h2 : k ∈ mapKeys rest := by
        simp only [mapKeys, List.map_cons, List.mem_cons] at h
        rcases h with h | h
        · exact absurd h.symm he
        · exact h
      have h3 := ih h2
      simp only [mapKeys] at h3 ⊢
      simp [mapSet, beq_eq_false_iff_ne.mpr he, h3]

theorem mapKeys_mapSet_of_not_mem (m : List (String × α)) (k : String) (v : α)
    (h : k ∉ mapKeys m) : mapKeys (mapSet m k v) = mapKeys m ++ [k] := by
  induction m with
  | nil => simp [mapSet, mapKeys]
  | cons e rest ih =>
    simp only [mapKeys, List.map_cons, List.mem_cons] at h
    push_neg at h
    have he : e.1 ≠ k := fun hh => h.1 hh.symm
    have h3 := ih h.2
    simp only [mapKeys] at h3 ⊢
    simp [mapSet, beq_eq_false_iff_ne.mpr he, h3]

theorem mapKeys_mapSet_nodup (m : List (String × α)) (k : String) (v : α)
    (h : (mapKeys m).Nodup) : (mapKeys (mapSet m k v)).Nodup := by
  by_cases hk : k ∈ mapKeys m
  · rw [mapKeys_mapSet_of_mem m k v hk]; exact h
  · rw [mapKeys_mapSet_of_not_mem m k v hk]
    simp [List.nodup_append, h, hk]

theorem length_mapSet_of_mem (m : List (String × α)) (k : String) (v : α)
    (h : k ∈ mapKeys m) : (mapSet m k v).length = m.length := by
  have := mapKeys_mapSet_of_mem m k v h
  have h1 : (mapKeys (mapSet m k v)).length = (mapKeys m).length := by rw [this]
  simpa [mapKeys] using h1

/-! Helper lemmas about serialization and the handler chain. -/

theorem mapGet_truthMap (names : List String) (init : List (String × Bool))
    (n : String) :
    ((mapGet (names.foldl (fun m nm => mapSet m nm true) init) n).getD false) =
      (names.contains n || (mapGet init n).getD false) := by
  induction names generalizing init with
  | nil => simp
  | cons nm rest ih =>
    rw [List.foldl_cons, ih]
    by_cases h : n = nm
    · subst h
      simp [mapGet_mapSet_self]
    · rw [mapGet_mapSet_ne init nm n true h]
      simp [List.contains_cons, h]

theorem toJSON_some_eq (reg : SlashCommandRegistry ρ) (names : List String)
    (bjson : TopLevelBuilder ρ → J) :
    reg.toJSON (some names) bjson =
      (reg.commands.filter (fun c => names.contains c.name)).map bjson := by
  simp only [SlashCommandRegistry.toJSON, shouldAddCmd]
  congr 1
  apply List.filter_congr
  intro c _
  rw [mapGet_truthMap names [] c.name]
  simp [mapGet_nil]

theorem toJSON_none_eq (reg : SlashCommandRegistry ρ) (hgood : goodNames reg)
    (bjson : TopLevelBuilder ρ → J) :
    reg.toJSON none bjson = reg.commands.map bjson := by
  simp only [SlashCommandRegistry.toJSON, shouldAddCmd]
  congr 1
  apply List.filter_eq_self.mpr
  intro c hc
  rcases List.mem_map.mp hc with ⟨e, he, rfl⟩
  have hname : TopLevelBuilder.name e.2 = e.1 := hgood e he
  rw [hname]
  have : e.1 ∈ mapKeys reg.command_map := by
    simp only [mapKeys]
    exact List.mem_map.mpr ⟨e, he, rfl⟩
  simpa using mapGet_isSome_of_mem_keys reg.command_map e.1 this

theorem mem_mapSet_cases (m : List (String × α)) (k : String) (v : α)
    (e : String × α) (he : e ∈ mapSet m k v) : e ∈ m ∨ e = (k, v) := by
  induction m with
  | nil =>
    right
    simpa [mapSet] using he
  | cons f rest ih =>
    by_cases h : f.1 = k
    · have hset : mapSet (f :: rest) k v = (k, v) :: rest := by
        simp [mapSet, h]
      rw [hset] at he
      rcases List.mem_cons.mp he with heq | hm
      · right; exact heq
      · left; exact List.mem_cons_of_mem f hm
    · have hset : mapSet (f :: rest) k v = f :: mapSet rest k v := by
        simp [mapSet, beq_eq_false_iff_ne.mpr h]
      rw [hset] at he
      rcases List.mem_cons.mp he with heq | hm
      · left; rw [heq]; exact List.mem_cons_self f rest
      · rcases ih hm with h1 | h1
        · left; exact List.mem_cons_of_mem f h1
        · right; exact h1

theorem mem_keys_mapSet_self (m : List (String × α)) (k : String) (v : α) :
    k ∈ mapKeys (mapSet m k v) :=
  List.mem_map.mpr ⟨(k, v), mem_mapSet_self m k v, rfl⟩

theorem goodNames_addCommand (reg : SlashCommandRegistry ρ)
    (input : BuilderInput (SlashCommandBuilder ρ)) (hgood : goodNames reg) :
    goodNames (reg.addCommand input).2 := by
  unfold SlashCommandRegistry.addCommand
  cases hres : assertReturnOfBuilder (resolveBuilder input {}) "SlashCommandBuilder" with
  | error e => exact hgood
  | ok b =>
    intro e he
    rcases mem_mapSet_cases _ _ _ e he with hm | rfl
    · exact hgood e hm
    · rfl

theorem commands_map_name_eq_keys (reg : SlashCommandRegistry ρ)
    (hgood : goodNames reg) :
    reg.commands.map TopLevelBuilder.name = mapKeys reg.command_map := by
  simp only [SlashCommandRegistry.commands, mapKeys, List.map_map]
  exact List.map_congr_left (fun e he => hgood e he)

theorem orElse_chain_eq_spec (a b c d : Option (Handler ρ)) :
    ((a.orElse (fun _ => b)).orElse (fun _ => c)).orElse (fun _ => d) =
      specFirstNonAbsent a b c d := by
  cases a <;> cases b <;> cases c <;> simp [Option.orElse, specFirstNonAbsent]

/-! Claim theorems. -/

/-- C10: execute never mutates the registry.  For every interaction and
every registry state, after execute returns or throws, the registry that
comes out of the state passing translation is the registry that went in;
in particular the name to definition entries, their order, the handlers
stored in them and the default handler are all unchanged. -/
theorem execute_preserves_registry {ρ : Type} (reg : SlashCommandRegistry ρ)
    (input : EventInput) :
    (reg.execute input).2 = reg ∧
    (reg.execute input).2.command_map = reg.command_map ∧
    (reg.execute input).2.default_handler = reg.default_handler := by
  have h : (reg.execute input).2 = reg := by
    unfold SlashCommandRegistry.execute
    cases input with
    | nonEvent => rfl
    | event i =>
      dsimp only
      split
      · rfl
      · split
        · rfl
        · split <;> rfl
  exact ⟨h, by rw [h], by rw [h]⟩

/-- C2: execute discriminates its input in two stages.  A value that is
not a command like event at all produces the notCommand error, and a
recognized interaction whose two command discriminators are both false
produces a silent no-op returning undefined, with no error and no
handler invocation, even when a default handler is configured. -/
theorem execute_event_discrimination {ρ : Type} (reg : SlashCommandRegistry ρ)
    (i : Interaction) (h : i.kind = IKind.other) :
    (reg.execute EventInput.nonEvent).1 =
      Except.error (ExecError.notCommand notCommandMsg) ∧
    (reg.execute (EventInput.event i)).1 = Except.ok none := by
  refine ⟨rfl, ?_⟩
  unfold SlashCommandRegistry.execute
  simp [Interaction.isChatInputCommand, Interaction.isContextMenuCommand, h]

/-- Witness for C2 at a registry with a configured default handler and a
concrete interaction whose discriminators are both false. -/
theorem execute_event_discrimination_witness :
    (regW.execute EventInput.nonEvent).1 =
      Except.error (ExecError.notCommand notCommandMsg) ∧
    (regW.execute (EventInput.event iOtherW)).1 = Except.ok none :=
  execute_event_discrimination regW iOtherW rfl

/-- C7: a per call token override is active for exactly one HTTP call.
The assembled call carries the override token, the transport outcome is
propagated verbatim in both the success and the failure case, the rest
token is restored to the configured registry token immediately after the
call, and a subsequent call without an override therefore runs with the
originally configured token. -/
theorem registerCommands_token_restore {ρ J E A : Type}
    (reg : SlashCommandRegistry ρ) (opts : RegisterOpts)
    (transport : RestCall J → Except E A) (bjson : TopLevelBuilder ρ → J)
    (t : String) (hov : opts.token = some t) (ht : t ≠ "") :
    (reg.registerCommands opts transport bjson).2.rest_token = reg.token ∧
    (({ reg with rest_token := opts.token } :
        SlashCommandRegistry ρ).restCallOf opts bjson).token = some t ∧
    (reg.registerCommands opts transport bjson).1 =
      transport (({ reg with rest_token := opts.token } :
        SlashCommandRegistry ρ).restCallOf opts bjson) ∧
    (∀ e : E,
      transport (({ reg with rest_token := opts.token } :
        SlashCommandRegistry ρ).restCallOf opts bjson) = Except.error e →
      (reg.registerCommands opts transport bjson).1 = Except.error e) ∧
    (∀ opts2 : RegisterOpts, opts2.token = none → ∀ bjson2 : TopLevelBuilder ρ → J,
      (((reg.registerCommands opts transport bjson).2.restCallOf opts2 bjson2)).token =
        reg.token) := by
  have hie : t.isEmpty = false := by
    cases hq : t.isEmpty
    · rfl
    · exact absurd ((String.isEmpty_iff t).mp hq) ht
  have htr : strTruthy opts.token = true := by
    rw [hov]
    simp [strTruthy, hie]
  refine ⟨?_, ?_, ?_, ?_, ?_⟩
  · simp [SlashCommandRegistry.registerCommands, htr]
  · simp [SlashCommandRegistry.restCallOf, hov]
  · simp [SlashCommandRegistry.registerCommands, htr]
  · intro e he
    simpa [SlashCommandRegistry.registerCommands, htr] using he
  · intro opts2 h2 bjson2
    simp [SlashCommandRegistry.registerCommands, SlashCommandRegistry.restCallOf, htr]

/-- Witness for C7 at a concrete registry, override token, and a
transport that fails. -/
theorem registerCommands_token_restore_witness :
    ((({ token := some "configured", rest_token := some "configured" } :
        SlashCommandRegistry Nat).registerCommands
      { token := some "override" }
      (fun _ => (Except.error "remote error" : Except String Nat))
      TopLevelBuilder.name).2.rest_token = some "configured") ∧
    ((({ token := some "configured", rest_token := some "configured" } :
        SlashCommandRegistry Nat).registerCommands
      { token := some "override" }
      (fun _ => (Except.error "remote error" : Except String Nat))
      TopLevelBuilder.name).1 = Except.error "remote error") := by
  have h := registerCommands_token_restore
    ({ token := some "configured", rest_token := some "configured" } :
      SlashCommandRegistry Nat)
    { token := some "override" }
    (fun _ => (Except.error "remote error" : Except String Nat))
    TopLevelBuilder.name "override" rfl (by decide)
  exact ⟨h.1, h.2.2.1⟩

/-- C8: a registration input that does not resolve to an instance of the
expected builder class raises an error and leaves the collection
untouched, and the message distinguishes a value built through the
discord.js parent class from an unrelated value, for both addCommand and
addContextMenuCommand. -/
theorem register_input_type_errors {ρ : Type} (reg : SlashCommandRegistry ρ)
    (input : BuilderInput (SlashCommandBuilder ρ))
    (input2 : BuilderInput (ContextMenuCommandBuilder ρ)) :
    (∀ shown, resolveBuilder input {} = Resolved.foreign shown →
      reg.addCommand input =
        (some ("Use SlashCommandBuilder from " ++ pack_name ++ ", not discord.js"),
          reg)) ∧
    (∀ shown, resolveBuilder input {} = Resolved.unrelated shown →
      reg.addCommand input =
        (some ("input did not resolve to a SlashCommandBuilder. Got " ++ shown),
          reg)) ∧
    (∀ shown, resolveBuilder input2 {} = Resolved.foreign shown →
      reg.addContextMenuCommand input2 =
        (some ("Use ContextMenuCommandBuilder from " ++ pack_name ++ ", not discord.js"),
          reg)) ∧
    (∀ shown, resolveBuilder input2 {} = Resolved.unrelated shown →
      reg.addContextMenuCommand input2 =
        (some ("input did not resolve to a ContextMenuCommandBuilder. Got " ++ shown),
          reg)) := by
  refine ⟨?_, ?_, ?_, ?_⟩ <;> intro shown hres <;>
    simp [SlashCommandRegistry.addCommand,
      SlashCommandRegistry.addContextMenuCommand, hres, assertReturnOfBuilder]

/-- Witness for C8: a foreign instance and an unrelated value are both
rejected with the distinguishing messages, leaving the registry as it
was. -/
theorem register_input_type_errors_witness :
    regW.addCommand (BuilderInput.value (Resolved.foreign "discord builder")) =
      (some ("Use SlashCommandBuilder from " ++ pack_name ++ ", not discord.js"),
        regW) ∧
    regW.addCommand (BuilderInput.fn (fun _ => Resolved.unrelated "thing")) =
      (some ("input did not resolve to a SlashCommandBuilder. Got thing"),
        regW) := by
  constructor
  · exact (register_input_type_errors regW
      (BuilderInput.value (Resolved.foreign "discord builder"))
      (BuilderInput.value (Resolved.foreign "x"))).1 "discord builder" rfl
  · exact (register_input_type_errors regW
      (BuilderInput.fn (fun _ => Resolved.unrelated "thing"))
      (BuilderInput.value (Resolved.foreign "x"))).2.1 "thing" rfl

/-- C6: the command collection keys top level definitions uniquely by
name.  Two builders registered under distinct names both appear in the
enumeration, re-registration under an existing name overwrites the prior
entry without changing the number of entries, and registration preserves
the absence of duplicate names. -/
theorem addCommand_name_keying {ρ : Type} (reg : SlashCommandRegistry ρ)
    (b b2 : SlashCommandBuilder ρ) :
    (b.name ≠ b2.name →
      TopLevelBuilder.slash b ∈
        ((reg.addCommand (BuilderInput.value (Resolved.ours b))).2.addCommand
          (BuilderInput.value (Resolved.ours b2))).2.commands ∧
      TopLevelBuilder.slash b2 ∈
        ((reg.addCommand (BuilderInput.value (Resolved.ours b))).2.addCommand
          (BuilderInput.value (Resolved.ours b2))).2.commands) ∧
    (b.name = b2.name →
      mapGet ((reg.addCommand (BuilderInput.value (Resolved.ours b))).2.addCommand
          (BuilderInput.value (Resolved.ours b2))).2.command_map b.name =
        some (TopLevelBuilder.slash b2) ∧
      ((reg.addCommand (BuilderInput.value (Resolved.ours b))).2.addCommand
          (BuilderInput.value (Resolved.ours b2))).2.command_map.length =
        (reg.addCommand (BuilderInput.value (Resolved.ours b))).2.command_map.length) ∧
    (∀ input : BuilderInput (SlashCommandBuilder ρ),
      (mapKeys reg.command_map).Nodup →
      (mapKeys (reg.addCommand input).2.command_map).Nodup) := by
  have hred : ∀ (r : SlashCommandRegistry ρ) (c : SlashCommandBuilder ρ),
      (r.addCommand (BuilderInput.value (Resolved.ours c))).2 =
        { r with command_map := mapSet r.command_map c.name (TopLevelBuilder.slash c) } :=
    fun r c => rfl
  refine ⟨?_, ?_, ?_⟩
  · intro hne
    rw [hred, hred]
    constructor
    · exact List.mem_map.mpr ⟨(b.name, TopLevelBuilder.slash b),
        mem_mapSet_of_ne _ _ _ _ (mem_mapSet_self _ _ _) hne, rfl⟩
    · exact List.mem_map.mpr ⟨(b2.name, TopLevelBuilder.slash b2),
        mem_mapSet_self _ _ _, rfl⟩
  · intro heq
    rw [hred, hred]
    constructor
    · rw [heq, mapGet_mapSet_self]
    · exact length_mapSet_of_mem _ _ _ (heq ▸ mem_keys_mapSet_self reg.command_map b.name _)
  · intro input hnd
    unfold SlashCommandRegistry.addCommand
    cases hres : assertReturnOfBuilder (resolveBuilder input {}) "SlashCommandBuilder" with
    | error e => exact hnd
    | ok c => exact mapKeys_mapSet_nodup _ _ _ hnd

/-- Witness for C6: registering a then b enumerates both, re-registering
a overwrites without duplicating, and key uniqueness is preserved. -/
theorem addCommand_name_keying_witness :
    (TopLevelBuilder.slash bAW ∈
      ((({} : SlashCommandRegistry Nat).addCommand
          (BuilderInput.value (Resolved.ours bAW))).2.addCommand
        (BuilderInput.value (Resolved.ours bBW))).2.commands ∧
     TopLevelBuilder.slash bBW ∈
      ((({} : SlashCommandRegistry Nat).addCommand
          (BuilderInput.value (Resolved.ours bAW))).2.addCommand
        (BuilderInput.value (Resolved.ours bBW))).2.commands) ∧
    (mapGet ((({} : SlashCommandRegistry Nat).addCommand
          (BuilderInput.value (Resolved.ours bAW))).2.addCommand
        (BuilderInput.value (Resolved.ours bA2W))).2.command_map bAW.name =
      some (TopLevelBuilder.slash bA2W) ∧
     ((({} : SlashCommandRegistry Nat).addCommand
          (BuilderInput.value (Resolved.ours bAW))).2.addCommand
        (BuilderInput.value (Resolved.ours bA2W))).2.command_map.length =
      ((({} : SlashCommandRegistry Nat).addCommand
        (BuilderInput.value (Resolved.ours bAW))).2.command_map.length)) :=
  ⟨(addCommand_name_keying {} bAW bBW).1 (by decide),
   (addCommand_name_keying {} bAW bA2W).2.1 rfl⟩

/-- C9: re-registration under an existing name keeps the original
position of that name in the enumeration and serialization order.  The
name sequence is unchanged by an overwrite and extended at the end by a
fresh insertion, the overwritten slot holds the new definition, and
serialization follows the enumeration order. -/
theorem overwrite_preserves_position {ρ J : Type} (reg : SlashCommandRegistry ρ)
    (b : SlashCommandBuilder ρ) (bjson : TopLevelBuilder ρ → J)
    (hgood : goodNames reg) :
    goodNames (reg.addCommand (BuilderInput.value (Resolved.ours b))).2 ∧
    (b.name ∈ mapKeys reg.command_map →
      (reg.addCommand (BuilderInput.value (Resolved.ours b))).2.commands.map
          TopLevelBuilder.name =
        reg.commands.map TopLevelBuilder.name ∧
      mapGet (reg.addCommand (BuilderInput.value (Resolved.ours b))).2.command_map
          b.name = some (TopLevelBuilder.slash b)) ∧
    (b.name ∉ mapKeys reg.command_map →
      (reg.addCommand (BuilderInput.value (Resolved.ours b))).2.commands.map
          TopLevelBuilder.name =
        reg.commands.map TopLevelBuilder.name ++ [b.name]) ∧
    (reg.addCommand (BuilderInput.value (Resolved.ours b))).2.toJSON none bjson =
      (reg.addCommand (BuilderInput.value (Resolved.ours b))).2.commands.map bjson := by
  have hred : (reg.addCommand (BuilderInput.value (Resolved.ours b))).2 =
      { reg with command_map := mapSet reg.command_map b.name (TopLevelBuilder.slash b) } :=
    rfl
  have hgood2 : goodNames (reg.addCommand (BuilderInput.value (Resolved.ours b))).2 :=
    goodNames_addCommand reg _ hgood
  refine ⟨hgood2, ?_, ?_, toJSON_none_eq _ hgood2 bjson⟩
  · intro hmem
    constructor
    · rw [commands_map_name_eq_keys _ hgood2, commands_map_name_eq_keys _ hgood, hred]
      exact mapKeys_mapSet_of_mem _ _ _ hmem
    · rw [hred]
      exact mapGet_mapSet_self _ _ _
  · intro hmem
    rw [commands_map_name_eq_keys _ hgood2, commands_map_name_eq_keys _ hgood, hred]
    exact mapKeys_mapSet_of_not_mem _ _ _ hmem

/-- Witness for C9: overwriting the first of two names keeps it first in
the enumeration, while a fresh name lands at the end. -/
theorem overwrite_preserves_position_witness :
    ((regNatW.addCommand (BuilderInput.value (Resolved.ours bA2W))).2.commands.map
        TopLevelBuilder.name =
      regNatW.commands.map TopLevelBuilder.name ∧
     mapGet (regNatW.addCommand (BuilderInput.value (Resolved.ours bA2W))).2.command_map
        bA2W.name = some (TopLevelBuilder.slash bA2W)) ∧
    (regNatW.addCommand (BuilderInput.value (Resolved.ours bCW))).2.commands.map
        TopLevelBuilder.name =
      regNatW.commands.map TopLevelBuilder.name ++ [bCW.name] :=
  ⟨(overwrite_preserves_position regNatW bA2W TopLevelBuilder.name
      (by intro e he; fin_cases he <;> rfl)).2.1 (by decide),
   (overwrite_preserves_position regNatW bCW TopLevelBuilder.name
      (by intro e he; fin_cases he <;> rfl)).2.2.1 (by decide)⟩

/-- C5: serialization without a filter returns the JSON of every
registered definition in insertion order; with a name list filter it
returns exactly the JSON of the registered definitions whose name is in
the list, in collection order independent of the filter order, and
unknown names in the filter are silently ignored. -/
theorem toJSON_filter_spec {ρ J : Type} (reg : SlashCommandRegistry ρ)
    (bjson : TopLevelBuilder ρ → J) (names : List String)
    (hgood : goodNames reg) :
    reg.toJSON none bjson = reg.commands.map bjson ∧
    reg.toJSON (some names) bjson =
      (reg.commands.filter (fun c => names.contains c.name)).map bjson ∧
    (∀ names2, List.Perm names names2 →
      reg.toJSON (some names) bjson = reg.toJSON (some names2) bjson) ∧
    (∀ u, u ∉ reg.commands.map TopLevelBuilder.name →
      reg.toJSON (some (u :: names)) bjson = reg.toJSON (some names) bjson) := by
  refine ⟨toJSON_none_eq reg hgood bjson, toJSON_some_eq reg names bjson, ?_, ?_⟩
  · intro names2 hperm
    rw [toJSON_some_eq, toJSON_some_eq]
    congr 1
    apply List.filter_congr
    intro c _
    simp [List.elem_iff, hperm.mem_iff]
  · intro u hu
    rw [toJSON_some_eq, toJSON_some_eq]
    congr 1
    apply List.filter_congr
    intro c hc
    have hne : c.name ≠ u := by
      intro heq
      exact hu (heq ▸ List.mem_map.mpr ⟨c, hc, rfl⟩)
    simp [List.contains_cons, beq_eq_false_iff_ne.mpr (fun hh => hne hh.symm)]
    exact fun heq => absurd heq hne

/-- Witness for C5 at the registry fixture: full serialization in
insertion order, and a filter with an unknown name keeping exactly the
named commands in collection order. -/
theorem toJSON_filter_spec_witness :
    regW.toJSON none TopLevelBuilder.name =
      regW.commands.map TopLevelBuilder.name ∧
    regW.toJSON (some ["cmd2", "zzz"]) TopLevelBuilder.name =
      (regW.commands.filter
        (fun c => (["cmd2", "zzz"] : List String).contains c.name)).map
        TopLevelBuilder.name := by
  have h := toJSON_filter_spec regW TopLevelBuilder.name ["cmd2", "zzz"]
    (by intro e he; fin_cases he <;> rfl)
  exact ⟨h.1, h.2.1⟩

/-- C1: for a matched chat input command, with any combination of
matched group, matched subcommand, top level handler and configured
default handler, execute returns the result of applying exactly the
first non absent handler in the order subcommand, group, top level,
default to the original interaction, and returns undefined without error
when no handler is present at any level. -/
theorem execute_dispatch_priority {ρ : Type} (reg : SlashCommandRegistry ρ)
    (i : Interaction) (c : SlashCommandBuilder ρ) (gb sb : Option (ChildEntry ρ))
    (hk : i.kind = IKind.chatInput)
    (htop : mapGet reg.command_map i.commandName = some (TopLevelBuilder.slash c))
    (hgb : gb = if strTruthy i.getSubcommandGroup then
        findGroup c.options (i.getSubcommandGroup.getD "") else none)
    (hgok : strTruthy i.getSubcommandGroup = true → gb.isSome)
    (hsb : sb = if strTruthy i.getSubcommand then
        findSub ((gb.map ChildEntry.groupOptions).getD c.options)
          (i.getSubcommand.getD "") else none)
    (hsok : strTruthy i.getSubcommand = true → sb.isSome) :
    (reg.execute (EventInput.event i)).1 =
      Except.ok ((specFirstNonAbsent (sb.bind ChildEntry.handler)
          (gb.bind ChildEntry.handler) c.handler reg.default_handler).map
        (fun h => h i)) := by
  have hchat : i.isChatInputCommand = true := by
    simp [Interaction.isChatInputCommand, hk]
  simp only [SlashCommandRegistry.execute, hchat, Bool.not_true, Bool.false_and,
    Bool.false_eq_true, if_false, htop]
  cases hgt : strTruthy i.getSubcommandGroup with
  | true =>
    have hgb2 : gb = findGroup c.options (i.getSubcommandGroup.getD "") := by
      rw [hgb, if_pos hgt]
    obtain ⟨g, hgsome⟩ := Option.isSome_iff_exists.mp (hgok hgt)
    have hfindg : findGroup c.options (i.getSubcommandGroup.getD "") = some g :=
      hgb2 ▸ hgsome
    cases hst : strTruthy i.getSubcommand with
    | true =>
      have hsb2 : sb = findSub g.groupOptions (i.getSubcommand.getD "") := by
        rw [hsb, if_pos hst, hgsome]
        rfl
      obtain ⟨s, hssome⟩ := Option.isSome_iff_exists.mp (hsok hst)
      have hfinds : findSub g.groupOptions (i.getSubcommand.getD "") = some s :=
        hsb2 ▸ hssome
      simp only [hgt, hst, if_true, TopLevelBuilder.optionsOf, hfindg, hfinds,
        hgsome, hssome, TopLevelBuilder.handler]
      rw [orElse_chain_eq_spec]
    | false =>
      have hsb2 : sb = none := by rw [hsb, if_neg (by simp [hst])]
      simp only [hgt, hst, if_true, Bool.false_eq_true, if_false,
        TopLevelBuilder.optionsOf, hfindg, hgsome, hsb2, TopLevelBuilder.handler]
      rw [orElse_chain_eq_spec]
  | false =>
    have hgb2 : gb = none := by rw [hgb, if_neg (by simp [hgt])]
    cases hst : strTruthy i.getSubcommand with
    | true =>
      have hsb2 : sb = findSub c.options (i.getSubcommand.getD "") := by
        rw [hsb, if_pos hst, hgb2]
        rfl
      obtain ⟨s, hssome⟩ := Option.isSome_iff_exists.mp (hsok hst)
      have hfinds : findSub c.options (i.getSubcommand.getD "") = some s :=
        hsb2 ▸ hssome
      simp only [hgt, hst, Bool.false_eq_true, if_false, if_true,
        TopLevelBuilder.optionsOf, hfinds, hgb2, hssome, TopLevelBuilder.handler]
      rw [orElse_chain_eq_spec]
    | false =>
      have hsb2 : sb = none := by rw [hsb, if_neg (by simp [hst])]
      simp only [hgt, hst, Bool.false_eq_true, if_false,
        TopLevelBuilder.optionsOf, hgb2, hsb2, TopLevelBuilder.handler, ite_self]
      rw [orElse_chain_eq_spec]

/-- Witness for C1: with handlers set at subcommand, group and top level
and a configured default handler, dispatching the command, group and
subcommand triple invokes only the subcommand handler. -/
theorem execute_dispatch_priority_witness :
    (regW.execute (EventInput.event iPrioW)).1 =
      Except.ok (some "sub handler") := by
  have h := execute_dispatch_priority regW iPrioW cmd2W
    (some group1W) (some subcmd1W) rfl rfl rfl (fun _ => rfl) rfl (fun _ => rfl)
  rw [h]
  rfl

/-- C4: a chat input interaction carrying a subcommand name searches for
the subcommand among the children of the matched group when a group was
given and matched, and otherwise directly among the children of the top
level command; the search only considers entries whose structural kind
is subcommand, and a failed search raises the unmatched error naming
subcommand, respectively group when the group search itself fails. -/
theorem execute_subcommand_resolution {ρ : Type} (reg : SlashCommandRegistry ρ)
    (i : Interaction) (c : SlashCommandBuilder ρ)
    (hk : i.kind = IKind.chatInput)
    (htop : mapGet reg.command_map i.commandName = some (TopLevelBuilder.slash c))
    (hst : strTruthy i.getSubcommand = true) :
    (∀ g, strTruthy i.getSubcommandGroup = true →
      findGroup c.options (i.getSubcommandGroup.getD "") = some g →
      (reg.execute (EventInput.event i)).1 =
        (match findSub g.groupOptions (i.getSubcommand.getD "") with
         | none => Except.error (ExecError.unmatched (builderErr i "subcommand"))
         | some s => Except.ok ((specFirstNonAbsent (ChildEntry.handler s)
             (ChildEntry.handler g) c.handler reg.default_handler).map
               (fun h => h i)))) ∧
    (strTruthy i.getSubcommandGroup = false →
      (reg.execute (EventInput.event i)).1 =
        (match findSub c.options (i.getSubcommand.getD "") with
         | none => Except.error (ExecError.unmatched (builderErr i "subcommand"))
         | some s => Except.ok ((specFirstNonAbsent (ChildEntry.handler s) none
             c.handler reg.default_handler).map (fun h => h i)))) ∧
    (strTruthy i.getSubcommandGroup = true →
      findGroup c.options (i.getSubcommandGroup.getD "") = none →
      (reg.execute (EventInput.event i)).1 =
        Except.error (ExecError.unmatched (builderErr i "group"))) ∧
    (∀ (opts : List (ChildEntry ρ)) (s : String),
      findSub opts s =
        (opts.filter (fun b => b.isSub)).find? (fun b => b.name == s)) := by
  have hchat : i.isChatInputCommand = true := by
    simp [Interaction.isChatInputCommand, hk]
  refine ⟨?_, ?_, ?_, ?_⟩
  · intro g hgt hfindg
    simp only [SlashCommandRegistry.execute, hchat, Bool.not_true, Bool.false_and,
      Bool.false_eq_true, if_false, htop]
    simp only [hgt, hst, if_true, TopLevelBuilder.optionsOf, hfindg,
      TopLevelBuilder.handler]
    cases hfs : findSub g.groupOptions (i.getSubcommand.getD "") with
    | none => simp only [hfs]
    | some s =>
      simp only [hfs]
      rw [orElse_chain_eq_spec]
      rfl
  · intro hgf
    simp only [SlashCommandRegistry.execute, hchat, Bool.not_true, Bool.false_and,
      Bool.false_eq_true, if_false, htop]
    simp only [hgf, hst, if_true, Bool.false_eq_true, if_false,
      TopLevelBuilder.optionsOf, TopLevelBuilder.handler]
    cases hfs : findSub c.options (i.getSubcommand.getD "") with
    | none => simp only [hfs]
    | some s =>
      simp only [hfs]
      rw [orElse_chain_eq_spec]
      rfl
  · intro hgt hfindg
    simp only [SlashCommandRegistry.execute, hchat, Bool.not_true, Bool.false_and,
      Bool.false_eq_true, if_false, htop]
    simp only [hgt, if_true, TopLevelBuilder.optionsOf, hfindg]
  · intro opts s
    induction opts with
    | nil => rfl
    | cons b rest ih =>
      cases b with
      | sub n h =>
        by_cases hn : (n == s)
        · simp [findSub, List.find?, List.filter, ChildEntry.isSub,
            ChildEntry.name, hn]
        · simp [findSub, List.find?, List.filter, ChildEntry.isSub,
            ChildEntry.name, hn] at ih ⊢
          exact ih
      | group n h o =>
        simp [findSub, List.find?, List.filter, ChildEntry.isSub,
          ChildEntry.name] at ih ⊢
        exact ih
      | plainOption n =>
        simp [findSub, List.find?, List.filter, ChildEntry.isSub,
          ChildEntry.name] at ih ⊢
        exact ih

/-- Witness for C4: a direct subcommand with no group is found among the
children of the top level command and its handler result is returned. -/
theorem execute_subcommand_resolution_witness :
    (regW.execute (EventInput.event iDirectW)).1 =
      (match findSub cmd1W.options ((iDirectW.getSubcommand).getD "") with
       | none => Except.error (ExecError.unmatched (builderErr iDirectW "subcommand"))
       | some s => Except.ok ((specFirstNonAbsent (ChildEntry.handler s) none
           cmd1W.handler regW.default_handler).map (fun h => h iDirectW))) ∧
    (regW.execute (EventInput.event iDirectW)).1 = Except.ok (some "sub handler") := by
  have h := (execute_subcommand_resolution regW iDirectW cmd1W rfl rfl rfl).2.1 rfl
  exact ⟨h, by rw [h]; rfl⟩

/-- C3 (amended): an unknown command name fails with the unmatched error
whose message starts with the line naming the mismatch point command and
echoing the command name; for chat input interactions the group and
subcommand lines follow, with the text none in angle brackets standing
in for absent names, while for context menu interactions the group and
subcommand lines are omitted entirely. -/
theorem execute_unmatched_command_message {ρ : Type} (reg : SlashCommandRegistry ρ)
    (i : Interaction)
    (hk : i.kind = IKind.chatInput ∨ i.kind = IKind.contextMenu)
    (hmiss : mapGet reg.command_map i.commandName = none) :
    (reg.execute (EventInput.event i)).1 =
      Except.error (ExecError.unmatched (builderErr i "command")) ∧
    ("mismatch starts at \x27command\x27".data <:+:
      "No known command matches the following (mismatch starts at \x27command\x27)".data) ∧
    (builderErrLines i "command").head? =
      some "No known command matches the following (mismatch starts at \x27command\x27)" ∧
    ("\tcommand:    " ++ i.commandName) ∈ builderErrLines i "command" ∧
    (i.kind = IKind.chatInput → i.optGroup = none →
      ("\tgroup:      <none>") ∈ builderErrLines i "command") ∧
    (i.kind = IKind.chatInput → i.optSub = none →
      ("\tsubcommand: <none>") ∈ builderErrLines i "command") ∧
    (i.kind = IKind.contextMenu →
      builderErrLines i "command" =
        ["No known command matches the following (mismatch starts at \x27command\x27)",
         "\tcommand:    " ++ i.commandName,
         "You may need to update your commands with the Discord API."]) := by
  refine ⟨?_, ⟨"No known command matches the following (".data, ")".data, by decide⟩,
    rfl, ?_, ?_, ?_, ?_⟩
  · rcases hk with hk | hk
    · have hchat : i.isChatInputCommand = true := by
        simp [Interaction.isChatInputCommand, hk]
      simp only [SlashCommandRegistry.execute, hchat, Bool.not_true,
        Bool.false_and, Bool.false_eq_true, if_false, hmiss]
    · have hchat : i.isChatInputCommand = false := by
        simp [Interaction.isChatInputCommand, hk]
      have hcm : i.isContextMenuCommand = true := by
        simp [Interaction.isContextMenuCommand, hk]
      simp only [SlashCommandRegistry.execute, hchat, hcm, Bool.not_true,
        Bool.not_false, Bool.and_false, Bool.true_and, Bool.false_eq_true,
        if_false, hmiss]
  · simp [builderErrLines]
  · intro hkind hgrp
    simp [builderErrLines, Interaction.isChatInputCommand,
      Interaction.getSubcommandGroup, hkind, hgrp]
  · intro hkind hsub
    simp [builderErrLines, Interaction.isChatInputCommand,
      Interaction.getSubcommand, hkind, hsub]
  · intro hkind
    simp [builderErrLines, Interaction.isChatInputCommand, hkind]

/-- Witness for C3 as amended: an unknown chat input command fails with
the unmatched error and the message carries the group line with the
placeholder for the absent group name. -/
theorem execute_unmatched_command_message_witness :
    (regW.execute (EventInput.event iBadW)).1 =
      Except.error (ExecError.unmatched (builderErr iBadW "command")) ∧
    ("\tgroup:      <none>") ∈ builderErrLines iBadW "command" ∧
    ("\tsubcommand: <none>") ∈ builderErrLines iBadW "command" := by
  have h := execute_unmatched_command_message regW iBadW (Or.inl rfl) rfl
  exact ⟨h.1, h.2.2.2.2.1 rfl rfl, h.2.2.2.2.2.1 rfl rfl⟩

set_option maxRecDepth 10000 in
/-- Counterexample to C3 as frozen: a context menu interaction with an
unknown command name fails with the unmatched error, but its message
does not echo the group and subcommand names at all, so the full name
triple with placeholders is not reported for every recognized event
kind. -/
theorem unmatched_context_menu_counterexample :
    (regW.execute (EventInput.event iBadCMW)).1 =
      Except.error (ExecError.unmatched (builderErr iBadCMW "command")) ∧
    ¬ ("\tgroup:      <none>".data <:+: (builderErr iBadCMW "command").data) ∧
    ¬ ("\tsubcommand: <none>".data <:+: (builderErr iBadCMW "command").data) := by
  refine ⟨rfl, ?_, ?_⟩ <;> decide

end DCR
